import Mathlib

/-!
Verification development for the dwmblocksrs status-bar program.

The definitions below are a shallow embedding of the Rust sources:
* `src/segments/program_output.rs` — `ProgramOutput` and its `compute_value`,
* `src/segments/constant.rs` — `Constant`,
* `src/color.rs` — `Color`, `Colorable::color`, `SegmentColoring`,
* `src/segments.rs` — `Segment`, `Segment::new`, `Segment::new_from_config`,
  `Segment::convert_signal_offsets`, `Segment::compute_value`,
* `src/main.rs` — the free function `update_interval` (GCD tick),
* `src/status_bar.rs` — `StatusBar::new`, `StatusBar::update_segment`.

Rust `String` is embedded as Lean `String` (a sequence of Unicode scalar
values, exactly as in Rust).  Byte buffers (`Vec<u8>`, the stdout/stderr of a
child process) are embedded as `List Nat` with entries below 256.  UTF-8
validation (`String::from_utf8`) is embedded by an explicit decoder, and the
UTF-8 serialisation of a string by an explicit encoder, so that byte-level
claims about the produced escape sequences can be settled.
-/

/-- One byte of UTF-8 continuation: `0x80 ≤ b ≤ 0xBF`. -/
def isUtf8Cont (b : Nat) : Bool := 0x80 ≤ b && b ≤ 0xBF

/-- Strict UTF-8 decoder over a byte list, returning the decoded scalar
values as `Char`s.  This follows the exact well-formedness rules enforced by
Rust's `String::from_utf8` (RFC 3629): overlong encodings, surrogate code
points and values above `0x10FFFF` are rejected. -/
def utf8Decode : List Nat → Option (List Char)
  | [] => some []
  | b :: rest =>
    if b < 0x80 then
      (utf8Decode rest).map (fun cs => Char.ofNat b :: cs)
    else if 0xC2 ≤ b && b ≤ 0xDF then
      match rest with
      | b1 :: rest2 =>
        if isUtf8Cont b1 then
          (utf8Decode rest2).map (fun cs =>
            Char.ofNat ((b - 0xC0) * 0x40 + (b1 - 0x80)) :: cs)
        else none
      | [] => none
    else if b == 0xE0 then
      match rest with
      | b1 :: b2 :: rest2 =>
        if (0xA0 ≤ b1 && b1 ≤ 0xBF) && isUtf8Cont b2 then
          (utf8Decode rest2).map (fun cs =>
            Char.ofNat ((b1 - 0x80) * 0x40 + (b2 - 0x80)) :: cs)
        else none
      | _ => none
    else if (0xE1 ≤ b && b ≤ 0xEC) || (0xEE ≤ b && b ≤ 0xEF) then
      match rest with
      | b1 :: b2 :: rest2 =>
        if isUtf8Cont b1 && isUtf8Cont b2 then
          (utf8Decode rest2).map (fun cs =>
            Char.ofNat ((b - 0xE0) * 0x1000 + (b1 - 0x80) * 0x40 + (b2 - 0x80)) :: cs)
        else none
      | _ => none
    else if b == 0xED then
      match rest with
      | b1 :: b2 :: rest2 =>
        if (0x80 ≤ b1 && b1 ≤ 0x9F) && isUtf8Cont b2 then
          (utf8Decode rest2).map (fun cs =>
            Char.ofNat (0xD000 + (b1 - 0x80) * 0x40 + (b2 - 0x80)) :: cs)
        else none
      | _ => none
    else if b == 0xF0 then
      match rest with
      | b1 :: b2 :: b3 :: rest2 =>
        if (0x90 ≤ b1 && b1 ≤ 0xBF) && (isUtf8Cont b2 && isUtf8Cont b3) then
          (utf8Decode rest2).map (fun cs =>
            Char.ofNat ((b1 - 0x80) * 0x1000 + (b2 - 0x80) * 0x40 + (b3 - 0x80)) :: cs)
        else none
      | _ => none
    else if 0xF1 ≤ b && b ≤ 0xF3 then
      match rest with
      | b1 :: b2 :: b3 :: rest2 =>
        if isUtf8Cont b1 && (isUtf8Cont b2 && isUtf8Cont b3) then
          (utf8Decode rest2).map (fun cs =>
            Char.ofNat ((b - 0xF0) * 0x40000 + (b1 - 0x80) * 0x1000 +
              (b2 - 0x80) * 0x40 + (b3 - 0x80)) :: cs)
        else none
      | _ => none
    else if b == 0xF4 then
      match rest with
      | b1 :: b2 :: b3 :: rest2 =>
        if (0x80 ≤ b1 && b1 ≤ 0x8F) && (isUtf8Cont b2 && isUtf8Cont b3) then
          (utf8Decode rest2).map (fun cs =>
            Char.ofNat (0x100000 + (b1 - 0x80) * 0x1000 +
              (b2 - 0x80) * 0x40 + (b3 - 0x80)) :: cs)
        else none
      | _ => none
    else none

/-- `String::from_utf8` on a byte buffer: `none` models the `Err` case (and
hence a panic at every `.unwrap()` call site in the sources). -/
def stringFromUtf8 (bs : List Nat) : Option String :=
  (utf8Decode bs).map fun cs => ⟨cs⟩

/-- UTF-8 serialisation of one Unicode scalar value. -/
def utf8EncodeChar (n : Nat) : List Nat :=
  if n < 0x80 then [n]
  else if n < 0x800 then [0xC0 + n / 0x40, 0x80 + n % 0x40]
  else if n < 0x10000 then
    [0xE0 + n / 0x1000, 0x80 + n / 0x40 % 0x40, 0x80 + n % 0x40]
  else
    [0xF0 + n / 0x40000, 0x80 + n / 0x1000 % 0x40, 0x80 + n / 0x40 % 0x40,
     0x80 + n % 0x40]

/-- The byte sequence a Rust `String` holds: UTF-8 serialisation of its
scalar values. -/
def utf8Encode (s : String) : List Nat :=
  (s.data.map fun c => utf8EncodeChar c.toNat).flatten

/-- Rust's `char::is_whitespace`: the Unicode `White_Space` property. -/
def rustIsWhitespace (c : Char) : Bool :=
  let n := c.toNat
  (9 ≤ n && n ≤ 13) || n == 0x20 || n == 0x85 || n == 0xA0 || n == 0x1680 ||
    (0x2000 ≤ n && n ≤ 0x200A) || n == 0x2028 || n == 0x2029 || n == 0x202F ||
    n == 0x205F || n == 0x3000

/-- Rust's `str::trim`: remove leading and trailing `White_Space` characters. -/
def rustTrim (s : String) : String :=
  ⟨((s.data.dropWhile rustIsWhitespace).reverse.dropWhile rustIsWhitespace).reverse⟩

/-! ## `src/segments/program_output.rs` -/

/-- The `ProgramOutput` struct: a resolved program path, its argument list and
the whitespace-trim flag. -/
structure ProgramOutput where
  program : String
  args : List String
  trim : Bool
deriving DecidableEq

/-- `std::process::Output` as captured by `Command::output()`: the exit
status (its `success()` bit and its `Display` rendering, which the code uses
in the warning message) and the raw stdout/stderr byte buffers. -/
structure ProcessOutput where
  success : Bool
  status : String
  stdout : List Nat
  stderr : List Nat
deriving DecidableEq

/-- Outcome of `Command::new(..).args(..).output()`: either a captured
`ProcessOutput` or a spawn error (carrying the `Display` of the
`io::Error`). -/
inductive SpawnResult where
  | ok (output : ProcessOutput)
  | err (e : String)
deriving DecidableEq

/-- The warnings `ProgramOutput::compute_value` can log, with the data that
is interpolated into the corresponding `warn!` format string. -/
inductive LogWarning where
  | spawnError (program : String) (args : List String) (error : String)
  | nonZeroExit (program : String) (args : List String) (status : String)
      (stderrTrimmed : String)
deriving DecidableEq

/-- `ProgramOutput::compute_value`, embedded over the outcome of the one
external call it makes (`Command::output()`).  The returned pair is the list
of logged warnings and the produced string; `none` models a panic, which the
Rust code reaches through `String::from_utf8(..).unwrap()` when stderr (in
the non-zero-exit warning, with logging enabled as both binaries configure)
or stdout is not valid UTF-8. -/
def ProgramOutput.compute_value (p : ProgramOutput) (r : SpawnResult) :
    Option (List LogWarning × String) :=
  match r with
  | .err e => some ([.spawnError p.program p.args e], "ERROR")
  | .ok output => do
    let warnings ←
      if output.success then
        pure []
      else do
        let serr ← stringFromUtf8 output.stderr
        pure [LogWarning.nonZeroExit p.program p.args output.status (rustTrim serr)]
    let out ← stringFromUtf8 output.stdout
    pure (warnings, if p.trim then rustTrim out else out)

/-! ## `src/color.rs` -/

/-- The `Color` enum.  The `Colored` payload is a Rust `u8`, embedded as
`Fin 256`. -/
inductive Color where
  | Colored (c : Fin 256)
  | Uncolored
deriving DecidableEq

/-- `Color::default()` is `Uncolored`. -/
def Color.default : Color := .Uncolored

/-- `Color::or_default`: keep an explicitly set color, fall through to the
given default when `Uncolored`. -/
def Color.or_default (c : Color) (default : Color) : Color :=
  match c with
  | .Uncolored => default
  | _ => c

/-- `Colorable::color` on a string (the only instance, `impl<A: AsRef<str>>
Colorable for A`): `Uncolored` returns the text unchanged, `Colored(c)`
produces `format!("{}{}\x01", c as char, text)`, i.e. the character with
scalar value `c`, the text, and the character `U+0001`. -/
def String.color (text : String) (color : Color) : String :=
  match color with
  | .Uncolored => text
  | .Colored c => ⟨Char.ofNat c.val :: text.data ++ [Char.ofNat 1]⟩

/-- The `SegmentColoring` struct: one optional color per rendered field. -/
structure SegmentColoring where
  text : Color
  left_separator : Color
  right_separator : Color
  icon : Color
deriving DecidableEq

/-- `SegmentColoring::default()`: every field `Uncolored`. -/
def SegmentColoring.default : SegmentColoring :=
  ⟨.Uncolored, .Uncolored, .Uncolored, .Uncolored⟩

/-- `SegmentColoring::or_default`: field-wise `Color::or_default` against the
configuration-level default coloring. -/
def SegmentColoring.or_default (c : SegmentColoring)
    (default_coloring : SegmentColoring) : SegmentColoring :=
  { text := c.text.or_default default_coloring.text
    left_separator := c.left_separator.or_default default_coloring.left_separator
    right_separator := c.right_separator.or_default default_coloring.right_separator
    icon := c.icon.or_default default_coloring.icon }

/-! ## `src/segments.rs` -/

/-- `std::time::Duration`: seconds (a `u64` in Rust) and the nanosecond
remainder (below `10^9`). -/
structure Duration where
  secs : Nat
  nanos : Nat
deriving DecidableEq

/-- `Duration::as_millis` (a `u128` in Rust; no truncation happens here). -/
def Duration.as_millis (d : Duration) : Nat :=
  d.secs * 1000 + d.nanos / 1000000

/-- `Duration::from_millis`. -/
def Duration.from_millis (m : Nat) : Duration :=
  ⟨m / 1000, m % 1000 * 1000000⟩

/-- The `SegmentKind` trait object (`Box<dyn SegmentKind>` with
`fn compute_value(&mut self) -> String`), embedded as a coalgebra: an
arbitrary stream of values together with how often `compute_value` has been
called.  Each call returns the next value of the stream and advances the
counter, which is exactly the observable behaviour of a deterministic
stateful `compute_value`. -/
structure SegmentKind where
  values : Nat → String
  calls : Nat

/-- One call of `SegmentKind::compute_value` on a trait object: the produced
string and the mutated receiver. -/
def SegmentKind.compute_value (k : SegmentKind) : String × SegmentKind :=
  (k.values k.calls, { k with calls := k.calls + 1 })

/-- `Constant` (from `src/segments/constant.rs`): `compute_value` returns the
held text on every call and mutates nothing. -/
def Constant (text : String) : SegmentKind :=
  { values := fun _ => text, calls := 0 }

/-- The `Segment` struct of `src/segments.rs`. -/
structure Segment where
  kind : SegmentKind
  update_interval : Option Duration
  signals : List Int
  left_separator : String
  right_separator : String
  icon : String
  hide_if_empty : Bool
  coloring : SegmentColoring

/-- `u32 as i32`: the bit-reinterpreting Rust cast. -/
def u32_as_i32 (n : Nat) : Int :=
  if n < 2 ^ 31 then (n : Int) else (n : Int) - 2 ^ 32

/-- Wrapping of an integer into the `i32` range, the release-mode semantics
of `i32` addition overflow. -/
def i32_wrap (x : Int) : Int :=
  (x + 2 ^ 31) % 2 ^ 32 - 2 ^ 31

/-- `Segment::convert_signal_offsets`, parametrised by the process-wide
`SIGRTMIN`/`SIGRTMAX` values (the Rust code reads them once into globals):
each `u32` offset is cast to `i32` and shifted by `SIGRTMIN`; the whole
conversion errs when any converted signal exceeds `SIGRTMAX`. -/
def convert_signal_offsets (sigrtmin sigrtmax : Int) (signal_offsets : List Nat) :
    Except String (List Int) :=
  let signals := signal_offsets.map fun s => i32_wrap (u32_as_i32 s + sigrtmin)
  if signals.any (fun s => decide (s > sigrtmax)) then
    .error "A used signal is greater than SIGRTMAX."
  else
    .ok signals

/-- `Segment::new`: defaulted formatting, signals from
`convert_signal_offsets`. -/
def Segment.new (kind : SegmentKind) (update_interval : Option Duration)
    (signal_offsets : List Nat) (sigrtmin sigrtmax : Int) :
    Except String Segment :=
  match convert_signal_offsets sigrtmin sigrtmax signal_offsets with
  | .error e => .error e
  | .ok signals =>
    .ok { kind, update_interval, signals
          left_separator := "", right_separator := "", icon := ""
          hide_if_empty := false, coloring := SegmentColoring.default }

/-- The `Configuration` struct of `src/config.rs` (the fields
`new_from_config` consults, plus the remaining config-level data). -/
structure Configuration where
  script_dir : String
  update_all_signal : Option Nat
  coloring : SegmentColoring
  left_separator : Option String
  right_separator : Option String

/-- `Segment::new_from_config`: separators fall back to the config-level
defaults and then to `""`, the icon defaults to `""`, the coloring is merged
against the config-level coloring by `SegmentColoring::or_default`, and the
signal offsets are converted as in `Segment::new`. -/
def Segment.new_from_config (kind : SegmentKind) (update_interval : Option Duration)
    (signal_offsets : List Nat) (left_separator : Option String)
    (right_separator : Option String) (icon : Option String)
    (hide_if_empty : Bool) (coloring : SegmentColoring)
    (config : Configuration) (sigrtmin sigrtmax : Int) :
    Except String Segment :=
  let left_separator := (left_separator.or config.left_separator).getD ""
  let right_separator := (right_separator.or config.right_separator).getD ""
  let icon := icon.getD ""
  let coloring := coloring.or_default config.coloring
  match convert_signal_offsets sigrtmin sigrtmax signal_offsets with
  | .error e => .error e
  | .ok signals =>
    .ok { kind, update_interval, signals
          left_separator, right_separator, icon, hide_if_empty, coloring }

/-- `Segment::compute_value`: ask the kind for a fresh value (mutating it),
return `""` when `hide_if_empty` and the value is empty, otherwise the
colored concatenation `left_separator ++ icon ++ value ++ right_separator`. -/
def Segment.compute_value (s : Segment) : String × Segment :=
  let r := s.kind.compute_value
  let new_value := r.1
  let s := { s with kind := r.2 }
  if s.hide_if_empty && new_value == "" then
    ("", s)
  else
    (s.left_separator.color s.coloring.left_separator ++
       s.icon.color s.coloring.icon ++
       new_value.color s.coloring.text ++
       s.right_separator.color s.coloring.right_separator,
     s)

/-! ## `src/main.rs`: the GCD tick -/

/-- The free function `update_interval` of `src/main.rs`: the shared tick is
the `gcd`-reduction of every present segment interval, where each interval is
taken `as_millis()` and then cast `as u64` (truncation modulo `2^64`); the
result is rebuilt with `Duration::from_millis`.  `reduce` on an empty
iterator gives `None`: with no intervals there is no tick. -/
def update_interval (segments : List Segment) : Option Duration :=
  match (segments.filterMap Segment.update_interval).map
      (fun d => d.as_millis % 2 ^ 64) with
  | [] => none
  | m :: ms => some (Duration.from_millis (ms.foldl Nat.gcd m))

/-! ## `src/status_bar.rs`

The X11 handles (`display`, `window`) are the external sink; `set_status`
(an `XStoreName` + `XSync` call) is embedded as appending the current text to
a trace of published strings, most recent first. -/

/-- The `StatusBar` struct, with the sink call trace in place of the X11
handles. -/
structure StatusBar where
  segments : List Segment
  segment_texts : List String
  current_text : String
  published : List String

/-- `StatusBar::set_status`: publish `current_text` to the sink. -/
def StatusBar.set_status (sb : StatusBar) : StatusBar :=
  { sb with published := sb.current_text :: sb.published }

/-- The `segments.iter().map(|segment| segment.compute_value())` pass of
`StatusBar::new`: compute every segment once, in order, threading each
segment's mutated state. -/
def computeAll : List Segment → List String × List Segment
  | [] => ([], [])
  | s :: rest =>
    let r := s.compute_value
    let rs := computeAll rest
    (r.1 :: rs.1, r.2 :: rs.2)

/-- `StatusBar::new`: compute every segment's text once, join the texts into
`current_text`, and publish it via `set_status` before returning. -/
def StatusBar.new (segments : List Segment) : StatusBar :=
  let r := computeAll segments
  StatusBar.set_status
    { segments := r.2, segment_texts := r.1
      current_text := String.join r.1, published := [] }

/-- `StatusBar::update_segment`: recompute the given segment, re-join all
texts, and publish exactly when the joined string differs from
`current_text`.  `none` models the out-of-bounds indexing panic (unreachable
from `run`, which only passes ids produced by `enumerate`). -/
def StatusBar.update_segment (sb : StatusBar) (segment : Nat) : Option StatusBar :=
  match sb.segments[segment]? with
  | none => none
  | some seg =>
    let r := seg.compute_value
    let segments := sb.segments.set segment r.2
    let segment_texts := sb.segment_texts.set segment r.1
    let new_text := String.join segment_texts
    some <|
      if sb.current_text ≠ new_text then
        StatusBar.set_status
          { segments, segment_texts, current_text := new_text
            published := sb.published }
      else
        { sb with segments, segment_texts }

/-- A whole run of updates against the status bar, in the order the event
loop of `run` delivers them. -/
def runUpdates (sb : StatusBar) (ids : List Nat) : Option StatusBar :=
  ids.foldlM StatusBar.update_segment sb

/-- Invariant of the status bar maintained by `StatusBar::new` and
`StatusBar::update_segment`: the most recently published string is
`current_text`, `current_text` is the join of the cached texts, and no two
consecutively published strings are equal. -/
def StatusBar.Inv (sb : StatusBar) : Prop :=
  sb.published.head? = some sb.current_text ∧
  sb.current_text = String.join sb.segment_texts ∧
  List.Chain' (· ≠ ·) sb.published

/-! ## Concrete inputs used by the per-claim witnesses and counterexamples -/

/-- A bare constant segment, for the C3 witness. -/
def segC3 : Segment :=
  { kind := Constant "A", update_interval := none, signals := []
    left_separator := "", right_separator := "", icon := ""
    hide_if_empty := false, coloring := SegmentColoring.default }

/-- The status bar reached from `StatusBar.new [segC3]` after one update of
segment 0: the recomputation yields `"A"` again, so nothing new is
published. -/
def sbC3 : StatusBar :=
  { segments := [{ segC3 with kind := { values := fun _ => "A", calls := 2 } }]
    segment_texts := ["A"], current_text := "A", published := ["A"] }

/-- Hidden-when-empty segment with decoration, for the C5 witness. -/
def segC5 : Segment :=
  { kind := Constant "", update_interval := none, signals := []
    left_separator := ">", right_separator := "<", icon := "$"
    hide_if_empty := true, coloring := SegmentColoring.default }

/-- Uncolored, hidden-when-empty, decorated segment whose kind computes `""`:
the C6 counterexample input. -/
def segC6x : Segment :=
  { kind := Constant "", update_interval := none, signals := []
    left_separator := ">", right_separator := "<", icon := "$"
    hide_if_empty := true, coloring := SegmentColoring.default }

/-- Uncolored decorated segment with a non-empty value, for the C6 witness. -/
def segC6w : Segment :=
  { kind := Constant "test", update_interval := none, signals := []
    left_separator := ">", right_separator := "<", icon := "$"
    hide_if_empty := false, coloring := SegmentColoring.default }

/-- Segments with update intervals of 4 s and 6 s, for the C9 witness. -/
def segsC9 : List Segment :=
  [{ kind := Constant "a", update_interval := some ⟨4, 0⟩, signals := []
     left_separator := "", right_separator := "", icon := ""
     hide_if_empty := false, coloring := SegmentColoring.default },
   { kind := Constant "b", update_interval := some ⟨6, 0⟩, signals := []
     left_separator := "", right_separator := "", icon := ""
     hide_if_empty := false, coloring := SegmentColoring.default }]

/-- One segment whose update interval is `2^61` seconds, i.e.
`2^61 * 1000 = 125 * 2^64` milliseconds: the `as u64` cast truncates this to
`0`.  The C9 counterexample input. -/
def segsC9x : List Segment :=
  [{ kind := Constant "a", update_interval := some ⟨2 ^ 61, 0⟩, signals := []
     left_separator := "", right_separator := "", icon := ""
     hide_if_empty := false, coloring := SegmentColoring.default }]

/-- Configuration with config-level default coloring and a default left
separator, for the C7 witness. -/
def configC7 : Configuration :=
  { script_dir := "", update_all_signal := none
    coloring := ⟨.Colored 2, .Colored 3, .Uncolored, .Uncolored⟩
    left_separator := some ">", right_separator := none }

/-- The fully resolved segment `new_from_config` produces from the C7 witness
inputs. -/
def segC7w : Segment :=
  { kind := Constant "t", update_interval := none, signals := []
    left_separator := ">", right_separator := "", icon := ""
    hide_if_empty := false
    coloring := ⟨.Colored 6, .Colored 3, .Uncolored, .Uncolored⟩ }

/-- Specification-side view of signal-offset resolution: every offset shifted
by `SIGRTMIN`, with no integer narrowing. -/
def resolve_signals (smin : Int) (offsets : List Nat) : List Int :=
  offsets.map fun o => Int.ofNat o + smin

/-! ## Helper lemmas -/

/-- `Char.ofNat` then `toNat` is the identity below the surrogate range. -/
theorem char_toNat_ofNat_small (n : Nat) (h : n < 0xD800) :
    (Char.ofNat n).toNat = n := by
  simp only [Char.ofNat, Nat.isValidChar, Char.ofNatAux, Char.toNat]
  rw [dif_pos (Or.inl h)]
  simp [UInt32.toNat, BitVec.toNat_ofNat]

/-- `Duration::from_millis` then `as_millis` round-trips. -/
theorem as_millis_from_millis (m : Nat) :
    (Duration.from_millis m).as_millis = m := by
  simp only [Duration.from_millis, Duration.as_millis]
  rw [Nat.mul_div_cancel _ (by norm_num)]
  omega

/-- The second component of `Segment::compute_value` only advances the kind's
call counter. -/
theorem compute_value_snd (s : Segment) :
    (s.compute_value).2 = { s with kind := (s.kind.compute_value).2 } := by
  unfold Segment.compute_value
  dsimp only
  split <;> rfl

/-- `computeAll` computes every segment once, in order. -/
theorem computeAll_eq (l : List Segment) :
    computeAll l =
      (l.map fun s => (s.compute_value).1, l.map fun s => (s.compute_value).2) := by
  induction l with
  | nil => rfl
  | cons s rest ih => simp [computeAll, ih]

/-- A `foldl` of `Nat.gcd` divides its seed and every list element. -/
theorem foldl_gcd_dvd (l : List Nat) (m : Nat) :
    l.foldl Nat.gcd m ∣ m ∧ ∀ x ∈ l, l.foldl Nat.gcd m ∣ x := by
  induction l generalizing m with
  | nil => exact ⟨dvd_refl m, by simp⟩
  | cons x xs ih =>
    have h := ih (Nat.gcd m x)
    refine ⟨h.1.trans (Nat.gcd_dvd_left m x), ?_⟩
    intro y hy
    rcases List.mem_cons.mp hy with rfl | hy
    · exact h.1.trans (Nat.gcd_dvd_right m y)
    · exact h.2 y hy

/-- Any common divisor of the seed and the list elements divides the
`Nat.gcd` fold. -/
theorem dvd_foldl_gcd (l : List Nat) (m k : Nat) (hm : k ∣ m)
    (hl : ∀ x ∈ l, k ∣ x) : k ∣ l.foldl Nat.gcd m := by
  induction l generalizing m with
  | nil => exact hm
  | cons x xs ih =>
    exact ih (Nat.gcd m x) (Nat.dvd_gcd hm (hl x (by simp)))
      fun y hy => hl y (List.mem_cons_of_mem _ hy)

/-- `StatusBar::new` establishes the invariant. -/
theorem inv_new (segments : List Segment) : (StatusBar.new segments).Inv := by
  refine ⟨rfl, rfl, ?_⟩
  simp [StatusBar.new, StatusBar.set_status]

/-- `StatusBar::update_segment` preserves the invariant. -/
theorem inv_update (sb sb' : StatusBar) (id : Nat) (hinv : sb.Inv)
    (h : sb.update_segment id = some sb') : sb'.Inv := by
  obtain ⟨hhead, hjoin, hchain⟩ := hinv
  unfold StatusBar.update_segment at h
  cases hseg : sb.segments[id]? with
  | none => rw [hseg] at h; exact absurd h (by simp)
  | some seg =>
    rw [hseg] at h
    simp only [Option.some.injEq] at h
    by_cases hne :
        sb.current_text ≠ String.join (sb.segment_texts.set id (seg.compute_value).1)
    · rw [if_pos hne] at h
      subst h
      refine ⟨rfl, rfl, ?_⟩
      dsimp only [StatusBar.set_status]
      rw [List.chain'_cons']
      refine ⟨?_, hchain⟩
      intro y hy
      rw [hhead] at hy
      simp only [Option.mem_def, Option.some.injEq] at hy
      subst hy
      exact fun hc => hne hc.symm
    · rw [if_neg hne] at h
      subst h
      rw [not_ne_iff] at hne
      exact ⟨hhead, hne, hchain⟩

/-- `StatusBar::update_segment` publishes exactly when the re-joined text
differs from `current_text`, and is otherwise a no-op on the sink. -/
theorem update_publishes (sb sb' : StatusBar) (id : Nat)
    (h : sb.update_segment id = some sb') :
    (String.join sb'.segment_texts ≠ sb.current_text →
      sb'.published = String.join sb'.segment_texts :: sb.published) ∧
    (String.join sb'.segment_texts = sb.current_text →
      sb'.published = sb.published) := by
  unfold StatusBar.update_segment at h
  cases hseg : sb.segments[id]? with
  | none => rw [hseg] at h; exact absurd h (by simp)
  | some seg =>
    rw [hseg] at h
    simp only [Option.some.injEq] at h
    by_cases hne :
        sb.current_text ≠ String.join (sb.segment_texts.set id (seg.compute_value).1)
    · rw [if_pos hne] at h
      subst h
      exact ⟨fun _ => rfl, fun hc => absurd hc.symm hne⟩
    · rw [if_neg hne] at h
      subst h
      rw [not_ne_iff] at hne
      exact ⟨fun hc => absurd hne.symm hc, fun _ => rfl⟩

/-- `runUpdates` preserves the invariant. -/
theorem inv_runUpdates (ids : List Nat) (sb sb' : StatusBar) (hinv : sb.Inv)
    (h : runUpdates sb ids = some sb') : sb'.Inv := by
  induction ids generalizing sb with
  | nil =>
    simp only [runUpdates, List.foldlM, Option.pure_def, Option.some.injEq] at h
    subst h; exact hinv
  | cons id ids ih =>
    rw [runUpdates, List.foldlM_cons] at h
    cases hstep : sb.update_segment id with
    | none => rw [hstep] at h; exact absurd h (by simp)
    | some sbm =>
      rw [hstep] at h
      exact ih sbm (inv_update sb sbm id hinv hstep) h

/-! ## Claims -/

/-- C1 (corrected): `ProgramOutput::compute_value` never fails on a spawn
error or a non-zero exit status, but it is not total over non-UTF-8 output:
when the captured stdout — or, on a non-zero exit, the captured stderr — is
not valid UTF-8, the `String::from_utf8(..).unwrap()` calls panic (modelled
as `none`).  Under the UTF-8 hypotheses every outcome yields a string. -/
theorem c1_compute_value_total_on_utf8 (p : ProgramOutput) (r : SpawnResult)
    (h1 : ∀ o, r = .ok o → (stringFromUtf8 o.stdout).isSome = true)
    (h2 : ∀ o, r = .ok o → o.success = false →
      (stringFromUtf8 o.stderr).isSome = true) :
    (ProgramOutput.compute_value p r).isSome = true := by
  cases r with
  | err e => rfl
  | ok o =>
    obtain ⟨sout, hsout⟩ := Option.isSome_iff_exists.mp (h1 o rfl)
    cases hsucc : o.success with
    | true => simp [ProgramOutput.compute_value, hsucc, hsout]
    | false =>
      obtain ⟨serr, hserr⟩ := Option.isSome_iff_exists.mp (h2 o rfl hsucc)
      simp [ProgramOutput.compute_value, hsucc, hsout, hserr]

/-- C1 witness: a concrete non-zero-exit outcome with UTF-8 stdout (`"hi\n"`)
and stderr (`"er"`) yields a string. -/
theorem c1_witness :
    (ProgramOutput.compute_value ⟨"date", [], true⟩
      (.ok ⟨false, "exit status: 1", [104, 105, 10], [101, 114]⟩)).isSome = true :=
  c1_compute_value_total_on_utf8 _ _
    (fun o h => by cases h; decide)
    (fun o h _ => by cases h; decide)

/-- C1 counterexample: a successful run whose stdout is the invalid UTF-8
byte `0xFF` makes `compute_value` panic (`none`) instead of returning a
string, refuting the claim that every outcome yields a `String`. -/
theorem c1_counterexample :
    ProgramOutput.compute_value ⟨"script", [], false⟩
      (.ok ⟨true, "exit status: 0", [0xFF], []⟩) = none := rfl

/-- C2 (corrected): a spawn error yields a logged warning (with program,
arguments, and the underlying error) and exactly `"ERROR"`; a non-zero exit
with UTF-8 streams yields a warning carrying the trimmed stderr while the
returned value is the captured stdout, trimmed exactly when `trim` is set —
never the sentinel.  The UTF-8 hypotheses are necessary: see the
counterexample. -/
theorem c2_spawn_error_and_nonzero_exit (p : ProgramOutput) (e : String)
    (o : ProcessOutput) (sout serr : String)
    (h1 : stringFromUtf8 o.stdout = some sout)
    (h2 : stringFromUtf8 o.stderr = some serr)
    (h3 : o.success = false) :
    ProgramOutput.compute_value p (.err e) =
      some ([.spawnError p.program p.args e], "ERROR") ∧
    ProgramOutput.compute_value p (.ok o) =
      some ([.nonZeroExit p.program p.args o.status (rustTrim serr)],
        if p.trim then rustTrim sout else sout) := by
  refine ⟨rfl, ?_⟩
  simp [ProgramOutput.compute_value, h1, h2, h3]

/-- C2 witness: with `trim` set, a non-zero exit with stdout `" ok \n"` and
stderr `"bad\n"` logs the warning with trimmed stderr `"bad"` and returns the
trimmed stdout `"ok"`. -/
theorem c2_witness :
    ProgramOutput.compute_value ⟨"p", ["x"], true⟩
      (.ok ⟨false, "exit status: 1", [32, 111, 107, 32, 10], [98, 97, 100, 10]⟩) =
      some ([.nonZeroExit "p" ["x"] "exit status: 1" "bad"], "ok") :=
  (c2_spawn_error_and_nonzero_exit ⟨"p", ["x"], true⟩ "e"
    ⟨false, "exit status: 1", [32, 111, 107, 32, 10], [98, 97, 100, 10]⟩
    " ok \n" "bad\n" rfl rfl rfl).2

/-- C2 counterexample: on a non-zero exit whose captured stdout is the
invalid UTF-8 byte `0xC0`, `compute_value` panics (`none`) instead of
returning the captured stdout, refuting the claim as stated. -/
theorem c2_counterexample :
    ProgramOutput.compute_value ⟨"script", ["a"], true⟩
      (.ok ⟨false, "exit status: 1", [0xC0], [101]⟩) = none := rfl

/-- C5 (confirmed): a segment with `hide_if_empty` whose kind computes `""`
renders exactly `""` — separators and icon are suppressed as well. -/
theorem c5_hide_if_empty (s : Segment) (h1 : s.hide_if_empty = true)
    (h2 : (s.kind.compute_value).1 = "") : (s.compute_value).1 = "" := by
  simp [Segment.compute_value, h1, h2]

/-- C5 witness: a hidden-when-empty segment with separators `>`/`<` and icon
`$` around an empty constant renders `""`. -/
theorem c5_witness : (segC5.compute_value).1 = "" :=
  c5_hide_if_empty segC5 rfl rfl

/-- C6 counterexample: an entirely uncolored segment with separators and an
icon, `hide_if_empty` set, and an empty computed value renders `""`, not the
claimed concatenation `">" ++ "$" ++ "" ++ "<"`. -/
theorem c6_counterexample :
    segC6x.coloring = SegmentColoring.default ∧
    (segC6x.compute_value).1 = "" ∧
    (segC6x.compute_value).1 ≠
      segC6x.left_separator ++ segC6x.icon ++ (segC6x.kind.compute_value).1 ++
        segC6x.right_separator := by
  refine ⟨rfl, rfl, ?_⟩
  decide

/-- C6 (corrected): with no coloring configured, `compute_value` renders the
verbatim concatenation `left_separator ++ icon ++ value ++ right_separator` —
except in the `hide_if_empty`-with-empty-value case, which renders `""` (the
counterexample), and which the claim must exclude. -/
theorem c6_no_coloring_concat (s : Segment)
    (h1 : s.coloring = SegmentColoring.default)
    (h2 : ¬(s.hide_if_empty = true ∧ (s.kind.compute_value).1 = "")) :
    (s.compute_value).1 =
      s.left_separator ++ s.icon ++ (s.kind.compute_value).1 ++
        s.right_separator := by
  have ht : s.coloring.text = .Uncolored := by rw [h1]; rfl
  have hl : s.coloring.left_separator = .Uncolored := by rw [h1]; rfl
  have hr : s.coloring.right_separator = .Uncolored := by rw [h1]; rfl
  have hi : s.coloring.icon = .Uncolored := by rw [h1]; rfl
  by_cases hh : s.hide_if_empty = true
  · have hv : ¬((s.kind.compute_value).1 = "") := fun hv => h2 ⟨hh, hv⟩
    simp [Segment.compute_value, String.color, ht, hl, hr, hi, hh, hv]
  · have hh' : s.hide_if_empty = false := by
      revert hh; cases s.hide_if_empty <;> simp
    simp [Segment.compute_value, String.color, ht, hl, hr, hi, hh']

/-- C6 witness: an uncolored segment with separators `>`/`<`, icon `$` and
value `"test"` renders `">$test<"`, the verbatim concatenation. -/
theorem c6_witness :
    (segC6w.compute_value).1 =
      segC6w.left_separator ++ segC6w.icon ++ (segC6w.kind.compute_value).1 ++
        segC6w.right_separator :=
  c6_no_coloring_concat segC6w rfl (by decide)

/-- C7 (confirmed): `new_from_config` stores, at construction time, the
field-wise merge of the per-segment coloring against the config-level
default: an explicitly `Colored` per-segment slot always wins, an `Uncolored`
slot inherits the config default, and two `Uncolored` slots stay uncolored. -/
theorem c7_color_resolution (kind : SegmentKind) (ui : Option Duration)
    (offsets : List Nat) (ls rs ic : Option String) (hie : Bool)
    (sc : SegmentColoring) (config : Configuration) (smin smax : Int)
    (seg : Segment)
    (h : Segment.new_from_config kind ui offsets ls rs ic hie sc config
      smin smax = .ok seg) :
    seg.coloring = sc.or_default config.coloring ∧
    seg.coloring.text = sc.text.or_default config.coloring.text ∧
    seg.coloring.left_separator =
      sc.left_separator.or_default config.coloring.left_separator ∧
    seg.coloring.right_separator =
      sc.right_separator.or_default config.coloring.right_separator ∧
    seg.coloring.icon = sc.icon.or_default config.coloring.icon ∧
    (∀ (u : Fin 256) (d : Color), (Color.Colored u).or_default d = Color.Colored u) ∧
    (∀ d : Color, Color.Uncolored.or_default d = d) := by
  unfold Segment.new_from_config at h
  dsimp only at h
  cases hc : convert_signal_offsets smin smax offsets with
  | error e => rw [hc] at h; exact absurd h (by simp)
  | ok sigs =>
    rw [hc] at h
    simp only [Except.ok.injEq] at h
    subst h
    exact ⟨rfl, rfl, rfl, rfl, rfl, fun u d => rfl, fun d => rfl⟩

/-- C7 witness: per-segment text color `6` overrides the config default `2`,
the unset left-separator slot inherits the config default `3`, and the
doubly-unset right-separator and icon slots stay uncolored. -/
theorem c7_witness :
    segC7w.coloring =
      SegmentColoring.or_default ⟨.Colored 6, .Uncolored, .Uncolored, .Uncolored⟩
        configC7.coloring :=
  (c7_color_resolution (Constant "t") none [] (some ">") none none false
    ⟨.Colored 6, .Uncolored, .Uncolored, .Uncolored⟩ configC7 34 64 segC7w rfl).1

/-- C10 counterexample: coloring `"x"` with `Colored 200` produces the bytes
`[0xC3, 0x88, 0x78, 0x01]` — `200 as char` is the scalar U+00C8, which UTF-8
serialises as the two bytes `0xC3 0x88` — and not the claimed single byte
`200` followed by `"x"` and `0x01`. -/
theorem c10_counterexample :
    utf8Encode (String.color "x" (Color.Colored 200)) = [0xC3, 0x88, 0x78, 0x01] ∧
    utf8Encode (String.color "x" (Color.Colored 200)) ≠
      200 :: utf8Encode "x" ++ [1] := by
  refine ⟨rfl, ?_⟩
  decide

/-- C10 (corrected): coloring with `Colored c` prepends the character with
scalar value `c` and appends the character U+0001; at the byte level the
prefix is the single byte `c` exactly when `c < 0x80` (for `c ≥ 0x80` it is
a two-byte UTF-8 sequence, see the counterexample).  `Uncolored` returns the
string unchanged. -/
theorem c10_color_encoding (s : String) (c : Fin 256) :
    String.color s (Color.Colored c) = ⟨Char.ofNat c.val :: s.data ++ [Char.ofNat 1]⟩ ∧
    (c.val < 0x80 →
      utf8Encode (String.color s (Color.Colored c)) = c.val :: utf8Encode s ++ [1]) ∧
    String.color s Color.Uncolored = s := by
  refine ⟨rfl, ?_, rfl⟩
  intro hc
  have hcv : (Char.ofNat c.val).toNat = c.val :=
    char_toNat_ofNat_small c.val (lt_trans c.isLt (by norm_num))
  have h1 : (Char.ofNat 1).toNat = 1 := char_toNat_ofNat_small 1 (by norm_num)
  simp [utf8Encode, String.color, hcv, h1, utf8EncodeChar, hc]

/-- C10 witness: coloring `"x"` with `Colored 65` yields the bytes
`65 :: "x" ++ [1]`. -/
theorem c10_witness :
    utf8Encode (String.color "x" (Color.Colored 65)) = 65 :: utf8Encode "x" ++ [1] :=
  (c10_color_encoding "x" 65).2.1 (by decide)

/-- C3 (confirmed): starting from `StatusBar::new` and along any sequence of
`update_segment` calls, no two consecutively published strings are equal, the
most recently published string is `current_text`, and a further
`update_segment` publishes (appends to the sink trace) exactly when the
re-joined status string differs from the last published string, and is a
no-op on the sink otherwise. -/
theorem c3_publish_dedup (segs : List Segment) (ids : List Nat) (sb' : StatusBar)
    (h : runUpdates (StatusBar.new segs) ids = some sb') :
    List.Chain' (· ≠ ·) sb'.published ∧
    sb'.published.head? = some sb'.current_text ∧
    ∀ id sb'', sb'.update_segment id = some sb'' →
      (String.join sb''.segment_texts ≠ sb'.current_text →
        sb''.published = String.join sb''.segment_texts :: sb'.published) ∧
      (String.join sb''.segment_texts = sb'.current_text →
        sb''.published = sb'.published) := by
  have hinv := inv_runUpdates ids (StatusBar.new segs) sb' (inv_new segs) h
  exact ⟨hinv.2.2, hinv.1, fun id sb'' h'' => update_publishes sb' sb'' id h''⟩

/-- C3 witness: one constant segment `"A"`, one redundant update: the sink
trace stays `["A"]`, adjacent-distinct, with head equal to `current_text`. -/
theorem c3_witness :
    List.Chain' (· ≠ ·) sbC3.published ∧
    sbC3.published.head? = some sbC3.current_text ∧
    ∀ id sb'', sbC3.update_segment id = some sb'' →
      (String.join sb''.segment_texts ≠ sbC3.current_text →
        sb''.published = String.join sb''.segment_texts :: sbC3.published) ∧
      (String.join sb''.segment_texts = sbC3.current_text →
        sb''.published = sbC3.published) :=
  c3_publish_dedup [segC3] [0] sbC3 rfl

/-- C4 (confirmed): `StatusBar::new` computes every configured segment's
value exactly once (each kind's call counter advances by one), caches the
texts in configuration order, and its single `set_status` call publishes
exactly the in-order concatenation of those computed texts. -/
theorem c4_startup_publish (segs : List Segment) :
    (StatusBar.new segs).published =
      [String.join (segs.map fun s => (s.compute_value).1)] ∧
    (StatusBar.new segs).segment_texts = segs.map (fun s => (s.compute_value).1) ∧
    (StatusBar.new segs).segments = segs.map (fun s => (s.compute_value).2) ∧
    (StatusBar.new segs).segments.map (fun s => s.kind.calls) =
      segs.map fun s => s.kind.calls + 1 := by
  have hc := computeAll_eq segs
  refine ⟨?_, ?_, ?_, ?_⟩
  · simp [StatusBar.new, StatusBar.set_status, hc]
  · simp [StatusBar.new, StatusBar.set_status, hc]
  · simp [StatusBar.new, StatusBar.set_status, hc]
  · simp only [StatusBar.new, StatusBar.set_status, hc, List.map_map]
    apply List.map_congr_left
    intro s _
    rw [Function.comp_apply, compute_value_snd]
    rfl

/-- Conversion of one in-range signal offset: below `2^31` the `u32 as i32`
cast is the identity and the shifted sum needs no wrapping. -/
theorem i32_helper (smin : Int) (hmin : 0 ≤ smin) (o : Nat)
    (ho : (o : Int) + smin < 2 ^ 31) :
    i32_wrap (u32_as_i32 o + smin) = o + smin := by
  unfold u32_as_i32 i32_wrap
  have ho' : o < 2 ^ 31 := by omega
  rw [if_pos ho']
  omega

/-- C8 counterexample: with `SIGRTMIN = 34` and `SIGRTMAX = 64`, the offset
`4294967295` (`u32::MAX`) is cast `as i32` to `-1` and resolves to signal
`33 < SIGRTMIN` — outside the platform's real-time-signal range — yet
`convert_signal_offsets` accepts it, refuting the claimed "fails if and only
if out of range". -/
theorem c8_counterexample :
    convert_signal_offsets 34 64 [4294967295] = .ok [33] ∧
    ¬((34 : Int) ≤ 33) := by
  refine ⟨rfl, ?_⟩
  decide

/-- C8 (corrected): the conversion only rejects resolved signals above
`SIGRTMAX`; resolved signals below `SIGRTMIN` (reachable through the
wrapping `u32 as i32` cast, see the counterexample) are not rejected.  For
offsets small enough that no wrapping occurs, construction succeeds if and
only if every `offset + SIGRTMIN` is at most `SIGRTMAX`, it errs otherwise,
and on success the stored signal list is exactly the offsets each shifted by
`SIGRTMIN`. -/
theorem c8_signal_offsets (smin smax : Int) (offsets : List Nat)
    (hmin : 0 ≤ smin)
    (hsmall : ∀ o ∈ offsets, (o : Int) + smin < 2 ^ 31) :
    (convert_signal_offsets smin smax offsets =
        .ok (resolve_signals smin offsets) ↔
      ∀ o ∈ offsets, (o : Int) + smin ≤ smax) ∧
    ((∃ o ∈ offsets, smax < (o : Int) + smin) →
      convert_signal_offsets smin smax offsets =
        .error "A used signal is greater than SIGRTMAX.") ∧
    ∀ kind ui seg, Segment.new kind ui offsets smin smax = .ok seg →
      seg.signals = resolve_signals smin offsets := by
  have hmap : (offsets.map fun o => i32_wrap (u32_as_i32 o + smin)) =
      resolve_signals smin offsets :=
    List.map_congr_left fun o ho => i32_helper smin hmin o (hsmall o ho)
  have hok : (∀ o ∈ offsets, (o : Int) + smin ≤ smax) →
      convert_signal_offsets smin smax offsets =
        .ok (resolve_signals smin offsets) := by
    intro hall
    have hfalse : ((offsets.map fun o => i32_wrap (u32_as_i32 o + smin)).any
        fun s => decide (s > smax)) = false := by
      rw [hmap]
      rw [List.any_eq_false]
      intro x hx
      simp only [resolve_signals, List.mem_map] at hx
      obtain ⟨o, ho, rfl⟩ := hx
      simpa using hall o ho
    simp only [convert_signal_offsets]
    rw [hfalse]
    simp [hmap]
  have herr : (∃ o ∈ offsets, smax < (o : Int) + smin) →
      convert_signal_offsets smin smax offsets =
        .error "A used signal is greater than SIGRTMAX." := by
    intro hex
    have htrue : ((offsets.map fun o => i32_wrap (u32_as_i32 o + smin)).any
        fun s => decide (s > smax)) = true := by
      rw [hmap]
      rw [List.any_eq_true]
      obtain ⟨o, ho, hgt⟩ := hex
      refine ⟨Int.ofNat o + smin, ?_, by simpa using hgt⟩
      simp only [resolve_signals, List.mem_map]
      exact ⟨o, ho, rfl⟩
    simp only [convert_signal_offsets]
    rw [htrue]
    simp
  refine ⟨⟨?_, hok⟩, herr, ?_⟩
  · intro heq
    by_contra hall
    push_neg at hall
    rw [herr hall] at heq
    exact absurd heq (by simp)
  · intro kind ui seg hseg
    unfold Segment.new at hseg
    by_cases hall : ∀ o ∈ offsets, (o : Int) + smin ≤ smax
    · rw [hok hall] at hseg
      simp only [Except.ok.injEq] at hseg
      subst hseg
      rfl
    · push_neg at hall
      rw [herr hall] at hseg
      exact absurd hseg (by simp)

/-- C8 witness: with `SIGRTMIN = 34`, `SIGRTMAX = 64`, offsets `[0, 5]`
convert successfully to signals `[34, 39]`. -/
theorem c8_witness :
    convert_signal_offsets 34 64 [0, 5] = .ok (resolve_signals 34 [0, 5]) :=
  (c8_signal_offsets 34 64 [0, 5] (by decide) (by decide)).1.mpr (by decide)

/-- C9 counterexample: a single segment with an update interval of `2^61`
seconds has a true interval of `2^61 * 1000 = 2305843009213693952000`
milliseconds, but `as_millis() as u64` truncates it to `0`, so the computed
tick is `0` ms instead of the claimed greatest common divisor of the
intervals in milliseconds. -/
theorem c9_counterexample :
    (update_interval segsC9x).map Duration.as_millis = some 0 ∧
    ((segsC9x.filterMap Segment.update_interval).map Duration.as_millis).foldr
      Nat.gcd 0 = 2305843009213693952000 ∧
    (0 : Nat) ≠ 2305843009213693952000 := by
  refine ⟨rfl, ?_, by decide⟩
  have h : (segsC9x.filterMap Segment.update_interval).map Duration.as_millis =
      [2305843009213693952000] := rfl
  rw [h]
  simp [Nat.gcd_zero_right]

/-- C9 (corrected): the shared tick reduces, with `Nat.gcd`, the segments'
interval millisecond counts each truncated `as u64` (modulo `2^64`, see the
counterexample), over exactly the segments that have an interval; with no
interval present there is no tick.  Whenever every interval is below `2^64`
milliseconds the tick's millisecond value is the true greatest common
divisor: it divides every interval and every common divisor divides it. -/
theorem c9_gcd_tick (segments : List Segment)
    (hsmall : ∀ d ∈ segments.filterMap Segment.update_interval,
      d.as_millis < 2 ^ 64) :
    (update_interval segments = none ↔
      segments.filterMap Segment.update_interval = []) ∧
    ∀ t, update_interval segments = some t →
      (∀ d ∈ segments.filterMap Segment.update_interval,
        t.as_millis ∣ d.as_millis) ∧
      ∀ k : Nat, (∀ d ∈ segments.filterMap Segment.update_interval,
        k ∣ d.as_millis) → k ∣ t.as_millis := by
  cases hcase : segments.filterMap Segment.update_interval with
  | nil =>
    have hu : update_interval segments = none := by
      unfold update_interval
      rw [hcase]
      rfl
    refine ⟨⟨fun _ => rfl, fun _ => hu⟩, ?_⟩
    intro t ht
    rw [hu] at ht
    exact absurd ht (by simp)
  | cons d ds =>
    have hms : (d :: ds).map (fun x => x.as_millis % 2 ^ 64) =
        (d :: ds).map Duration.as_millis :=
      List.map_congr_left fun x hx =>
        Nat.mod_eq_of_lt (hsmall x (by rw [hcase]; exact hx))
    have hu : update_interval segments =
        some (Duration.from_millis
          ((ds.map Duration.as_millis).foldl Nat.gcd d.as_millis)) := by
      unfold update_interval
      rw [hcase, hms]
      rfl
    constructor
    · rw [hu]
      simp
    · intro t ht
      rw [hu] at ht
      simp only [Option.some.injEq] at ht
      subst ht
      have hg := foldl_gcd_dvd (ds.map Duration.as_millis) d.as_millis
      rw [as_millis_from_millis]
      constructor
      · intro x hx
        rcases List.mem_cons.mp hx with rfl | hx
        · exact hg.1
        · exact hg.2 _ (List.mem_map_of_mem _ hx)
      · intro k hk
        apply dvd_foldl_gcd
        · exact hk d (List.mem_cons_self d ds)
        · intro x hx
          rw [List.mem_map] at hx
          obtain ⟨d', hd', rfl⟩ := hx
          exact hk d' (List.mem_cons_of_mem _ hd')

/-- C9 witness: segments with intervals 4 s and 6 s produce the tick
`Duration::from_millis(2000)`, i.e. 2 s, and it divides both intervals. -/
theorem c9_witness :
    update_interval segsC9 = some (Duration.from_millis 2000) ∧
    ∀ d ∈ segsC9.filterMap Segment.update_interval,
      (Duration.from_millis 2000).as_millis ∣ d.as_millis :=
  ⟨rfl, ((c9_gcd_tick segsC9 (by decide)).2 (Duration.from_millis 2000) rfl).1⟩
